import Mathlib

/-!
Shallow embedding of the kill-monsters game core (TypeScript sources:
`GameSystem.ts`, the Player / Monster / Equipment / Chunk classes and the
spatial utilities) together with proofs about the combat, progression,
equipment and world-generation algorithms.

Modelling conventions:
* JavaScript numbers are modelled as `ℚ` wherever the code only performs
  field arithmetic, `min`/`max` and comparisons; `Math.sqrt` and `Math.sin`
  force `ℝ` in the chunk generator and the line-of-sight step count.
* `Math.random()` and `Date.now()`-derived ids are modelled as explicit
  entropy streams (`ℕ → ℚ`, `ℕ → ℝ`, `ℕ → ℕ`) threaded through the
  functions that consume them, one draw per `Math.random()` call, in the
  evaluation order of the source.
* Mutation of `this` is modelled by state-passing: each method takes the
  receiver record and returns the updated record.
-/

namespace KillMonsters

/-- Equipment slots, `EQUIPMENT_TYPES` = {WEAPON, ARMOR, ACCESSORY}. -/
inductive EquipType
  | weapon
  | armor
  | accessory
deriving DecidableEq

/-- Rarity tiers, `RARITY_TYPES` = {COMMON, UNCOMMON, RARE, EPIC, LEGENDARY}. -/
inductive Rarity
  | common
  | uncommon
  | rare
  | epic
  | legendary
deriving DecidableEq

/-- The sparse stat bag of an equipment item (`Equipment.stats`): each field
is an optional numeric bonus, `none` modelling an absent key. -/
structure Stats where
  attack : Option ℚ := none
  defense : Option ℚ := none
  maxHealth : Option ℚ := none
  criticalRate : Option ℚ := none
  lifesteal : Option ℚ := none
deriving DecidableEq

/-- JavaScript truthiness of an optional numeric stat: present and nonzero
(`if (item.stats.defense)` is false for `undefined` and for `0`). -/
def numTruthy : Option ℚ → Bool
  | none => false
  | some v => v != 0

/-- An equipment record.  `level` is optional because the loot literal built
in `Monster.dropLoot` has no `level` key while `BaseEquipment` always sets
one. -/
structure EquipmentItem where
  id : ℕ
  name : String
  description : String
  etype : EquipType
  rarity : Rarity
  level : Option ℤ
  stats : Stats
  isEquipped : Bool
deriving DecidableEq

/-- Skill categories from `SkillSystem.ts`. -/
inductive SkillType
  | aura
  | projectile
  | buff
  | debuff
deriving DecidableEq

/-- The observable fields of a skill that `Player.takeDamage` inspects
(`skill.type` and `skill.name`). -/
structure SkillRec where
  stype : SkillType
  name : String
  level : ℤ
deriving DecidableEq

/-- State of the `Player` class (`part_001`): position/size, combat stats,
progression counters, the owned skill and equipment lists, the separate
inventory list used by `EquipmentManager`, and the attack-cadence fields. -/
structure PlayerState where
  x : ℚ
  y : ℚ
  width : ℚ
  height : ℚ
  isSolid : Bool
  health : ℚ
  maxHealth : ℚ
  level : ℤ
  attack : ℚ
  defense : ℚ
  experience : ℚ
  experienceToNextLevel : ℤ
  skills : List SkillRec
  equipment : List EquipmentItem
  inventory : List EquipmentItem
  moveSpeed : ℚ
  attackSpeed : ℚ
  lastAttackTime : ℚ
  skillPoints : ℤ
deriving DecidableEq

/-- State of the `Monster` class (`part_000`). -/
structure MonsterState where
  id : ℕ
  x : ℚ
  y : ℚ
  width : ℚ
  height : ℚ
  isSolid : Bool
  health : ℚ
  maxHealth : ℚ
  level : ℤ
  attack : ℚ
  defense : ℚ
  experienceReward : ℚ
  isElite : Bool
  isBoss : Bool
  moveSpeed : ℚ
  attackRange : ℚ
  attackSpeed : ℚ
  lastAttackTime : ℚ
  aggroRange : ℚ
deriving DecidableEq

/-- `Monster.takeDamage(amount)`: mitigation `min(defense, amount * 0.5)`,
damage floored at 1, health decremented; returns the death signal
`health <= 0`. -/
def monsterTakeDamage (m : MonsterState) (amount : ℚ) : MonsterState × Bool :=
  let damageReduction := min m.defense (amount * (1/2))
  let actualDamage := max 1 (amount - damageReduction)
  let m2 := { m with health := m.health - actualDamage }
  (m2, decide (m2.health ≤ 0))

/-- One step of the equipped-armor reduction loop inside `Player.takeDamage`:
for each equipped item with a truthy `stats.defense`, subtract
`min(item.stats.defense, actualDamage * 0.5)` from the running damage. -/
def armorReduce (acc : ℚ) (it : EquipmentItem) : ℚ :=
  if it.isEquipped && numTruthy it.stats.defense then
    acc - min (it.stats.defense.getD 0) (acc * (1/2))
  else
    acc

/-- `Player.takeDamage(amount)`: base mitigation `min(defense, amount * 0.8)`
floored at 1, then the per-armor reduction loop, then
`health -= max(1, actualDamage)`; returns the death signal.
The trailing skill loop of the source (`skill.type === 'buff' &&
skill.name.includes('受伤')` then `skill.effect(this)`) cannot change the
state: every `buff`-type skill in `SkillSystem.ts` (`StrengthBuffSkill`,
`DefenseBuffSkill`, `HealthBuffSkill`) has an empty `effect` body, so the
loop is the identity on the player state and is elided here. -/
def playerTakeDamage (p : PlayerState) (amount : ℚ) : PlayerState × Bool :=
  let damageReduction := min p.defense (amount * (4/5))
  let afterBase := max 1 (amount - damageReduction)
  let afterArmor := p.equipment.foldl armorReduce afterBase
  let newHealth := p.health - max 1 afterArmor
  ({ p with health := newHealth }, decide (newHealth ≤ 0))

/-- Obstacle kinds, `OBSTACLE_TYPES` = {TREE, ROCK, WALL}. -/
inductive ObstacleType
  | tree
  | rock
  | wall
deriving DecidableEq

/-- An obstacle record as built inside `Chunk.generate`; coordinates and
sizes are reals because they come from the `Math.sin`-based chunk rng. -/
structure ObstacleRec where
  id : ℕ
  otype : ObstacleType
  x : ℝ
  y : ℝ
  width : ℝ
  height : ℝ
  isSolid : Bool
  health : ℝ
  maxHealth : ℝ
  level : ℤ

/-- The obstacle's `takeDamage` closure from `Chunk.generate`:
`obstacle.health -= amount; return obstacle.health <= 0` — note there is no
`max(1, ...)` floor and no defense mitigation. -/
noncomputable def obstacleTakeDamage (o : ObstacleRec) (amount : ℝ) :
    ObstacleRec × Bool :=
  let o2 := { o with health := o.health - amount }
  (o2, decide (o2.health ≤ 0))

/-- A concrete tree obstacle (shape of the records built by
`Chunk.generate` for `OBSTACLE_TYPES.TREE`). -/
def obstacleCx : ObstacleRec :=
  { id := 0, otype := .tree, x := 0, y := 0, width := 40, height := 60,
    isSolid := true, health := 100, maxHealth := 100, level := 1 }

/-- C1, counterexample: the obstacle `takeDamage` closure has no minimum-1
floor — a call with `amount = 0` on a full-health tree reduces health by 0,
refuting "for every entity and every damage amount the reported damage is
at least 1". -/
theorem c1_counterexample :
    obstacleCx.health - (obstacleTakeDamage obstacleCx 0).1.health < 1 := by
  simp [obstacleTakeDamage, obstacleCx]

/-- C1, amended: for players and monsters, `takeDamage(amount)` always
removes at least 1 health (so defense can never fully negate an attack) and
keeps `health ≤ maxHealth` whenever that held before; the obstacle
`takeDamage` instead subtracts exactly the given amount, with no floor. -/
theorem c1_amended (m : MonsterState) (p : PlayerState) (o : ObstacleRec)
    (amtM amtP : ℚ) (amtO : ℝ)
    (hm : m.health ≤ m.maxHealth) (hp : p.health ≤ p.maxHealth) :
    (1 ≤ m.health - (monsterTakeDamage m amtM).1.health ∧
      (monsterTakeDamage m amtM).1.health ≤ m.maxHealth) ∧
    (1 ≤ p.health - (playerTakeDamage p amtP).1.health ∧
      (playerTakeDamage p amtP).1.health ≤ p.maxHealth) ∧
    o.health - (obstacleTakeDamage o amtO).1.health = amtO := by
  refine ⟨⟨?_, ?_⟩, ⟨?_, ?_⟩, ?_⟩
  · simp only [monsterTakeDamage]
    have h1 : (1:ℚ) ≤ max 1 (amtM - min m.defense (amtM * (1/2))) :=
      le_max_left _ _
    linarith
  · simp only [monsterTakeDamage]
    have h1 : (1:ℚ) ≤ max 1 (amtM - min m.defense (amtM * (1/2))) :=
      le_max_left _ _
    linarith
  · simp only [playerTakeDamage]
    have h1 : (1:ℚ) ≤ max 1 (p.equipment.foldl armorReduce
        (max 1 (amtP - min p.defense (amtP * (4/5))))) := le_max_left _ _
    linarith
  · simp only [playerTakeDamage]
    have h1 : (1:ℚ) ≤ max 1 (p.equipment.foldl armorReduce
        (max 1 (amtP - min p.defense (amtP * (4/5))))) := le_max_left _ _
    linarith
  · simp [obstacleTakeDamage]

/-- A concrete player in the constructor state of the `Player` class. -/
def playerCx : PlayerState :=
  { x := 0, y := 0, width := 40, height := 60, isSolid := true,
    health := 100, maxHealth := 100, level := 1, attack := 20, defense := 5,
    experience := 0, experienceToNextLevel := 100,
    skills := [], equipment := [], inventory := [],
    moveSpeed := 300, attackSpeed := 1000, lastAttackTime := 0,
    skillPoints := 0 }

/-- A concrete level-1 normal monster (the `小怪` template of
`MONSTER_TYPES` at level 1 with width 30). -/
def monsterCx : MonsterState :=
  { id := 7, x := 0, y := 0, width := 30, height := 36, isSolid := true,
    health := 50, maxHealth := 50, level := 1, attack := 5, defense := 2,
    experienceReward := 10, isElite := false, isBoss := false,
    moveSpeed := 150, attackRange := 60, attackSpeed := 1000,
    lastAttackTime := 0, aggroRange := 200 }

/-- C1, witness for the amended theorem at a concrete monster, player,
obstacle and damage amounts. -/
theorem c1_witness :
    (monsterCx.health ≤ monsterCx.maxHealth) ∧
    (playerCx.health ≤ playerCx.maxHealth) ∧
    ((1 ≤ monsterCx.health - (monsterTakeDamage monsterCx 20).1.health ∧
      (monsterTakeDamage monsterCx 20).1.health ≤ monsterCx.maxHealth) ∧
    (1 ≤ playerCx.health - (playerTakeDamage playerCx 10).1.health ∧
      (playerTakeDamage playerCx 10).1.health ≤ playerCx.maxHealth) ∧
    obstacleCx.health - (obstacleTakeDamage obstacleCx 3).1.health = 3) :=
  ⟨by decide, by decide,
    c1_amended monsterCx playerCx obstacleCx 20 10 3 (by decide) (by decide)⟩

/-- `Player.addEquipment(equipment)`: pushes a fresh record
`{ ...equipment, isEquipped: false }` onto the owned-equipment list. -/
def addEquipment (p : PlayerState) (e : EquipmentItem) : PlayerState :=
  { p with equipment := p.equipment ++ [{ e with isEquipped := false }] }

/-- C10: `Player.addEquipment(e)` appends exactly one record, keeps the
existing list as a prefix, and the appended record agrees with `e` on every
field except `isEquipped`, which is forced to `false` regardless of
`e.isEquipped` — so picked-up loot is never auto-equipped and the appended
record is a copy, not the caller's record. -/
theorem c10_addEquipment (p : PlayerState) (e : EquipmentItem) :
    ((addEquipment p e).equipment.length = p.equipment.length + 1) ∧
    ((addEquipment p e).equipment.take p.equipment.length = p.equipment) ∧
    ∃ r, (addEquipment p e).equipment.getLast? = some r ∧
      r.id = e.id ∧ r.name = e.name ∧ r.description = e.description ∧
      r.etype = e.etype ∧ r.rarity = e.rarity ∧ r.level = e.level ∧
      r.stats = e.stats ∧ r.isEquipped = false := by
  refine ⟨?_, ?_, { e with isEquipped := false }, ?_, rfl, rfl, rfl, rfl,
    rfl, rfl, rfl, rfl⟩
  · simp [addEquipment]
  · simp [addEquipment, List.take_left]
  · simp [addEquipment]

/-- The rarity weight table of `EquipmentFactory.generateRarity`, in the
insertion order of the source object (`Object.entries` order). -/
def rarityWeights (isBossDrop : Bool) : List (Rarity × ℚ) :=
  [(.common, if isBossDrop then 0 else 60),
   (.uncommon, if isBossDrop then 10 else 30),
   (.rare, if isBossDrop then 30 else 8),
   (.epic, if isBossDrop then 40 else 2),
   (.legendary, if isBossDrop then 20 else 0)]

/-- The subtraction loop of the inlined `weightedRandom`: walk the entries,
subtracting each weight from the running value, returning the first key at
which the running value drops to `<= 0`. -/
def weightedGo : List (Rarity × ℚ) → ℚ → Option Rarity
  | [], _ => none
  | (k, w) :: rest, r =>
    let r2 := r - w
    if r2 ≤ 0 then some k else weightedGo rest r2

/-- The inlined `weightedRandom` of `EquipmentFactory.generateRarity`:
`randomValue = u * totalWeight`, then the subtraction loop, falling back to
the first key (`Object.keys(weights)[0] || 'COMMON'`) when the loop runs
off the end.  `u` is the `Math.random()` draw. -/
def weightedRandom (ws : List (Rarity × ℚ)) (u : ℚ) : Rarity :=
  let totalWeight := (ws.map Prod.snd).sum
  (weightedGo ws (u * totalWeight)).getD ((ws.head?.map Prod.fst).getD .common)

/-- `EquipmentFactory.generateRarity(isBossDrop)` with its `Math.random()`
draw `u` made explicit. -/
def generateRarity (isBossDrop : Bool) (u : ℚ) : Rarity :=
  weightedRandom (rarityWeights isBossDrop) u

/-- C5, counterexample: when the `Math.random()` draw is exactly 0 (a value
`Math.random()` can return), the running value starts at 0 and the very
first check `randomValue <= 0` fires on the COMMON entry even though its
weight was forced to 0 — a boss drop of rarity COMMON. -/
theorem c5_counterexample : generateRarity true 0 = .common := by
  simp only [generateRarity, weightedRandom, rarityWeights, weightedGo,
    List.map_cons, List.map_nil, List.sum_cons, List.sum_nil]
  norm_num

/-- C5, amended: for every `Math.random()` draw `u` with `0 < u < 1` —
i.e. everywhere except the single boundary draw `u = 0` — boss-drop rarity
generation never returns COMMON. -/
theorem c5_amended (u : ℚ) (h0 : 0 < u) (h1 : u < 1) :
    generateRarity true u ≠ .common := by
  simp only [generateRarity, weightedRandom, rarityWeights, weightedGo,
    List.map_cons, List.map_nil, List.sum_cons, List.sum_nil, if_true]
  norm_num
  split_ifs with h2 h3 h4 h5 h6 <;> simp_all <;> linarith

/-- C5, witness for the amended theorem at the draw `u = 1/2`. -/
theorem c5_witness :
    (0 : ℚ) < 1/2 ∧ (1/2 : ℚ) < 1 ∧ generateRarity true (1/2) ≠ .common :=
  ⟨by norm_num, by norm_num, c5_amended (1/2) (by norm_num) (by norm_num)⟩

/-- `randomInt(min, max)` from `gameUtils`:
`Math.floor(Math.random() * (max - min + 1)) + min`, with the
`Math.random()` draw `u` explicit. -/
def randomInt (lo hi : ℤ) (u : ℚ) : ℤ :=
  ⌊u * ((hi : ℚ) - lo + 1)⌋ + lo

/-- `Player.levelUp()`: level +1, experience minus the old threshold, new
threshold `Math.floor(old * 1.5)`, randomized stat gains
(`randomInt(20,40)`, `randomInt(5,10)`, `randomInt(3,6)` consuming the
draws `u1 u2 u3`), full heal to the new maximum, and one skill point. -/
def levelUp (p : PlayerState) (u1 u2 u3 : ℚ) : PlayerState :=
  let healthGain := randomInt 20 40 u1
  let attackGain := randomInt 5 10 u2
  let defenseGain := randomInt 3 6 u3
  { p with
    level := p.level + 1,
    experience := p.experience - p.experienceToNextLevel,
    experienceToNextLevel := ⌊(p.experienceToNextLevel : ℚ) * (3/2)⌋,
    maxHealth := p.maxHealth + healthGain,
    health := p.maxHealth + healthGain,
    attack := p.attack + attackGain,
    defense := p.defense + defenseGain,
    skillPoints := p.skillPoints + 1 }

/-- The `while (experience >= experienceToNextLevel) levelUp()` loop of
`Player.gainExperience`.  `g`/`pos` thread the `Math.random()` stream
(three draws per `levelUp`); the returned `ℕ` is the advanced cursor.
The extra conjunct `1 ≤ experienceToNextLevel` is a termination guard
only: it is an invariant of every state the `Player` class can construct
(the constructor and `reset` set the threshold to 100, and `levelUp` maps
any threshold `t ≥ 1` to `⌊1.5 * t⌋ ≥ 1`), and on such states it agrees
with the source's loop condition. -/
def gainExpLoop (p : PlayerState) (g : ℕ → ℚ) (pos : ℕ) : PlayerState × ℕ :=
  if h : (p.experienceToNextLevel : ℚ) ≤ p.experience ∧
      1 ≤ p.experienceToNextLevel then
    gainExpLoop (levelUp p (g pos) (g (pos + 1)) (g (pos + 2))) g (pos + 3)
  else
    (p, pos)
termination_by (Int.ceil p.experience).toNat
decreasing_by
  obtain ⟨h1, h2⟩ := h
  have hpos : (0 : ℚ) < p.experience :=
    lt_of_lt_of_le (by exact_mod_cast h2) h1
  have hcpos : 0 < Int.ceil p.experience := Int.ceil_pos.mpr hpos
  have hc : Int.ceil (levelUp p (g pos) (g (pos + 1)) (g (pos + 2))).experience
      = Int.ceil p.experience - p.experienceToNextLevel := by
    simp [levelUp, Int.ceil_sub_int]
  simp only [hc]
  omega

/-- `Player.gainExperience(amount)`: add the amount, then run the level-up
loop. -/
def gainExperience (p : PlayerState) (amount : ℚ) (g : ℕ → ℚ) (pos : ℕ) :
    PlayerState × ℕ :=
  gainExpLoop { p with experience := p.experience + amount } g pos

/-- Postcondition of the level-up loop: once it exits, the experience is
strictly below the (still `≥ 1`) threshold. -/
theorem gainExpLoop_spec :
    ∀ (n : ℕ) (p : PlayerState) (g : ℕ → ℚ) (pos : ℕ),
    (Int.ceil p.experience).toNat ≤ n → 1 ≤ p.experienceToNextLevel →
    (gainExpLoop p g pos).1.experience <
      ((gainExpLoop p g pos).1.experienceToNextLevel : ℚ) ∧
    1 ≤ (gainExpLoop p g pos).1.experienceToNextLevel := by
  intro n
  induction n with
  | zero =>
    intro p g pos hn ht
    rw [gainExpLoop]
    split
    · rename_i h
      exfalso
      obtain ⟨h1, h2⟩ := h
      have hpos : (0 : ℚ) < p.experience :=
        lt_of_lt_of_le (by exact_mod_cast h2) h1
      have := Int.ceil_pos.mpr hpos
      omega
    · rename_i h
      rw [Decidable.not_and_iff_or_not] at h
      rcases h with h | h
      · exact ⟨lt_of_not_le h, ht⟩
      · exact absurd ht h
  | succ n ih =>
    intro p g pos hn ht
    rw [gainExpLoop]
    split
    · rename_i h
      obtain ⟨h1, h2⟩ := h
      have hpos : (0 : ℚ) < p.experience :=
        lt_of_lt_of_le (by exact_mod_cast h2) h1
      have hcpos : 0 < Int.ceil p.experience := Int.ceil_pos.mpr hpos
      have hc : Int.ceil
          (levelUp p (g pos) (g (pos + 1)) (g (pos + 2))).experience
          = Int.ceil p.experience - p.experienceToNextLevel := by
        simp [levelUp, Int.ceil_sub_int]
      have hmeas : (Int.ceil
          (levelUp p (g pos) (g (pos + 1)) (g (pos + 2))).experience).toNat
          ≤ n := by
        rw [hc]; omega
      have ht2 : 1 ≤
          (levelUp p (g pos) (g (pos + 1)) (g (pos + 2))).experienceToNextLevel := by
        simp only [levelUp]
        rw [Int.le_floor]
        have : ((p.experienceToNextLevel : ℚ)) ≥ 1 := by exact_mod_cast h2
        push_cast
        linarith
      exact ih _ g _ hmeas ht2
    · rename_i h
      rw [Decidable.not_and_iff_or_not] at h
      rcases h with h | h
      · exact ⟨lt_of_not_le h, ht⟩
      · exact absurd ht h

/-- C2: for every player state satisfying the class invariant
`experienceToNextLevel ≥ 1` and every non-negative amount,
`gainExperience(amount)` terminates (it is a total function here, looping —
not branching once — so a single large gain can cross several thresholds)
and leaves `experience < experienceToNextLevel`. -/
theorem c2_gainExperience (p : PlayerState) (amount : ℚ) (g : ℕ → ℚ)
    (pos : ℕ) (ht : 1 ≤ p.experienceToNextLevel) (ha : 0 ≤ amount) :
    (gainExperience p amount g pos).1.experience <
      ((gainExperience p amount g pos).1.experienceToNextLevel : ℚ) := by
  unfold gainExperience
  exact (gainExpLoop_spec _ { p with experience := p.experience + amount }
    g pos le_rfl ht).1

/-- The scenario player: `experience = 95`, threshold 100, about to gain
250 XP (crossing two thresholds: 100 then 150). -/
def playerScenario : PlayerState := { playerCx with experience := 95 }

/-- C2, witness at the scenario state and a 250 XP gain. -/
theorem c2_witness :
    1 ≤ playerScenario.experienceToNextLevel ∧ (0 : ℚ) ≤ 250 ∧
    (gainExperience playerScenario 250 (fun _ => 0) 0).1.experience <
      ((gainExperience playerScenario 250 (fun _ => 0) 0).1.experienceToNextLevel : ℚ) :=
  ⟨by decide, by norm_num,
    c2_gainExperience playerScenario 250 (fun _ => 0) 0 (by decide) (by norm_num)⟩

/-- `BaseEquipment.applyEffect(player)`: adds each present stat to the
player.  The `criticalRate`/`lifesteal` cases are guarded by
`'criticalRate' in player` checks that fail for the `Player` class (it has
no such properties), and the `'baseAttack' in player` / `'baseDefense' in
player` probes likewise fail, so attack/defense go to the plain fields.
For `maxHealth`, health is raised by the bonus but clamped to the new
maximum. -/
def applyEffect (it : EquipmentItem) (p : PlayerState) : PlayerState :=
  let p1 := match it.stats.attack with
    | some v => { p with attack := p.attack + v }
    | none => p
  let p2 := match it.stats.defense with
    | some v => { p1 with defense := p1.defense + v }
    | none => p1
  match it.stats.maxHealth with
  | some v => { p2 with maxHealth := p2.maxHealth + v, health := min (p2.health + v) (p2.maxHealth + v) }
  | none => p2

/-- `BaseEquipment.removeEffect(player)`: subtracts each present stat, with
health floored at 1 when the maxHealth bonus is removed. -/
def removeEffect (it : EquipmentItem) (p : PlayerState) : PlayerState :=
  let p1 := match it.stats.attack with
    | some v => { p with attack := p.attack - v }
    | none => p
  let p2 := match it.stats.defense with
    | some v => { p1 with defense := p1.defense - v }
    | none => p1
  match it.stats.maxHealth with
  | some v => { p2 with maxHealth := p2.maxHealth - v, health := max 1 (p2.health - v) }
  | none => p2

/-- `EquipmentManager.equipToPlayer(player, equipment)`: if an item of the
same type sits in `player.equipment`, remove its effect, push it to the
inventory (its `isEquipped` flag untouched) and drop it from the equipment
list; then apply the new item's effect, push it and set its flag. -/
def equipToPlayer (p : PlayerState) (w : EquipmentItem) :
    PlayerState × Bool :=
  let p1 := match p.equipment.find? (fun eq => eq.etype == w.etype) with
    | some old =>
      let pr := removeEffect old p
      { pr with inventory := pr.inventory ++ [old],
                equipment := pr.equipment.filter (fun eq => eq.id != old.id) }
    | none => p
  let p2 := applyEffect w p1
  ({ p2 with
      equipment := p2.equipment ++ [{ w with isEquipped := true }] }, true)

/-- Set the `isEquipped` flag of the first list entry with the given id
(the object `Array.prototype.find` returns, mutated in place in the
source). -/
def setFlagFirstById : List EquipmentItem → ℕ → Bool → List EquipmentItem
  | [], _, _ => []
  | x :: xs, eid, b =>
    if x.id = eid then { x with isEquipped := b } :: xs
    else x :: setFlagFirstById xs eid b

/-- The `forEach` body of `Player.equipItem`: clear the flag of every item
of the given type. -/
def clearType (τ : EquipType) (it : EquipmentItem) : EquipmentItem :=
  if it.etype == τ then { it with isEquipped := false } else it

/-- `Player.equipItem(equipmentId)`: find the item; if already equipped,
unequip it; otherwise clear the flag on every item of the same type and
set the found item's flag. -/
def equipItem (p : PlayerState) (eid : ℕ) : PlayerState :=
  match p.equipment.find? (fun it => it.id == eid) with
  | none => p
  | some eq0 =>
    if eq0.isEquipped then
      { p with equipment := setFlagFirstById p.equipment eid false }
    else
      { p with equipment :=
          setFlagFirstById (p.equipment.map (clearType eq0.etype)) eid true }

/-- Number of items of type `t` flagged `isEquipped` in a list. -/
def countEquipped (t : EquipType) : List EquipmentItem → ℕ
  | [] => 0
  | e :: rest =>
    (if e.isEquipped && e.etype == t then 1 else 0) + countEquipped t rest

/-- The per-type uniqueness invariant: at most one equipped item of each
equipment type. -/
def atMostOnePerType (l : List EquipmentItem) : Prop :=
  ∀ t, countEquipped t l ≤ 1

theorem countEquipped_clearType_self (τ : EquipType)
    (l : List EquipmentItem) : countEquipped τ (l.map (clearType τ)) = 0 := by
  induction l with
  | nil => rfl
  | cons x xs ih =>
    by_cases hx : x.etype = τ <;> simp [countEquipped, clearType, hx, ih]

theorem countEquipped_clearType_ne (t τ : EquipType) (hne : t ≠ τ)
    (l : List EquipmentItem) :
    countEquipped t (l.map (clearType τ)) = countEquipped t l := by
  induction l with
  | nil => rfl
  | cons x xs ih =>
    by_cases hx : x.etype = τ
    · have hxt : (x.etype == t) = false := by
        rw [beq_eq_false_iff_ne, hx]
        exact fun h => hne h.symm
      simp [countEquipped, clearType, hx, hxt, ih]
      exact fun _ h => hne h.symm
    · simp [countEquipped, clearType, hx, ih]

theorem countEquipped_setFalse_le (t : EquipType) (l : List EquipmentItem)
    (eid : ℕ) :
    countEquipped t (setFlagFirstById l eid false) ≤ countEquipped t l := by
  induction l with
  | nil => exact le_refl _
  | cons x xs ih =>
    by_cases hx : x.id = eid
    · simp only [setFlagFirstById, hx, if_pos, countEquipped]
      by_cases he : x.isEquipped && x.etype == t <;> simp [he] <;> omega
    · simp only [setFlagFirstById, hx, if_neg, countEquipped,
        not_false_iff]
      omega

theorem countEquipped_setTrue_le (t : EquipType) (l : List EquipmentItem)
    (eid : ℕ) :
    countEquipped t (setFlagFirstById l eid true) ≤ countEquipped t l + 1 := by
  induction l with
  | nil => simp [setFlagFirstById, countEquipped]
  | cons x xs ih =>
    by_cases hx : x.id = eid
    · simp only [setFlagFirstById, hx, if_pos, countEquipped]
      by_cases ht : x.etype = t <;>
        by_cases he : x.isEquipped <;> simp [ht, he] <;> omega
    · simp only [setFlagFirstById, hx, if_neg, countEquipped,
        not_false_iff]
      omega

theorem countEquipped_setTrue_ne (t : EquipType) (l : List EquipmentItem)
    (eid : ℕ) (z : EquipmentItem)
    (hfind : l.find? (fun it => it.id == eid) = some z) (hz : z.etype ≠ t) :
    countEquipped t (setFlagFirstById l eid true) = countEquipped t l := by
  induction l with
  | nil => simp at hfind
  | cons x xs ih =>
    by_cases hx : x.id = eid
    · have hxz : x = z := by
        rw [List.find?_cons_of_pos _ (by simp [hx])] at hfind
        exact Option.some_injective _ hfind
      have hxt : (x.etype == t) = false := by
        rw [beq_eq_false_iff_ne, hxz]
        exact hz
      simp [countEquipped, setFlagFirstById, hx, hxt]
    · rw [List.find?_cons_of_neg _ (by simp [hx])] at hfind
      simp [countEquipped, setFlagFirstById, hx, ih hfind]

theorem applyEffect_inventory (it : EquipmentItem) (p : PlayerState) :
    (applyEffect it p).inventory = p.inventory := by
  unfold applyEffect
  cases it.stats.attack <;> cases it.stats.defense <;>
    cases it.stats.maxHealth <;> rfl

theorem applyEffect_equipment (it : EquipmentItem) (p : PlayerState) :
    (applyEffect it p).equipment = p.equipment := by
  unfold applyEffect
  cases it.stats.attack <;> cases it.stats.defense <;>
    cases it.stats.maxHealth <;> rfl

theorem applyEffect_attack (it : EquipmentItem) (p : PlayerState) :
    (applyEffect it p).attack = p.attack + it.stats.attack.getD 0 := by
  unfold applyEffect
  cases it.stats.attack <;> cases it.stats.defense <;>
    cases it.stats.maxHealth <;> simp

theorem removeEffect_inventory (it : EquipmentItem) (p : PlayerState) :
    (removeEffect it p).inventory = p.inventory := by
  unfold removeEffect
  cases it.stats.attack <;> cases it.stats.defense <;>
    cases it.stats.maxHealth <;> rfl

theorem removeEffect_equipment (it : EquipmentItem) (p : PlayerState) :
    (removeEffect it p).equipment = p.equipment := by
  unfold removeEffect
  cases it.stats.attack <;> cases it.stats.defense <;>
    cases it.stats.maxHealth <;> rfl

theorem removeEffect_attack (it : EquipmentItem) (p : PlayerState) :
    (removeEffect it p).attack = p.attack - it.stats.attack.getD 0 := by
  unfold removeEffect
  cases it.stats.attack <;> cases it.stats.defense <;>
    cases it.stats.maxHealth <;> simp

theorem find_of_filter_eq_singleton {α : Type} (p : α → Bool)
    (l : List α) (a : α) (h : l.filter p = [a]) : l.find? p = some a := by
  induction l with
  | nil => simp at h
  | cons x xs ih =>
    by_cases hx : p x
    · simp only [List.filter_cons, hx, if_true] at h
      rw [List.cons_eq_cons] at h
      rw [List.find?_cons_of_pos _ hx, h.1]
    · simp only [List.filter_cons, hx] at h
      rw [List.find?_cons_of_neg _ (by simp [hx])]
      simp only [Bool.false_eq_true, if_false] at h
      exact ih h

theorem eq_of_mem_of_filter_eq_singleton {α : Type} (p : α → Bool)
    (l : List α) (a b : α) (h : l.filter p = [a]) (hb : b ∈ l)
    (hpb : p b) : b = a := by
  have hm : b ∈ l.filter p := List.mem_filter.mpr ⟨hb, hpb⟩
  rw [h] at hm
  simpa using hm

def weaponA : EquipmentItem :=
  { id := 1, name := "A", description := "", etype := .weapon,
    rarity := .common, level := some 1, stats := {}, isEquipped := false }

def weaponB : EquipmentItem :=
  { id := 2, name := "B", description := "", etype := .weapon,
    rarity := .common, level := some 1, stats := {}, isEquipped := false }

/-- The player after equipping weapon A and then weapon B through
`EquipmentManager.equipToPlayer`. -/
def playerTwoWeapons : PlayerState :=
  (equipToPlayer (equipToPlayer playerCx weaponA).1 weaponB).1

/-- C4, counterexample: equip weapon A, then weapon B, both through
`EquipmentManager.equipToPlayer`.  The displaced weapon A moves to the
inventory but its `isEquipped` flag is never cleared, so two WEAPONs among
the player's owned items (equipment ++ inventory) are flagged equipped,
refuting "at most one item of each equipment type among all the player's
owned items is flagged isEquipped=true". -/
theorem c4_counterexample :
    1 < countEquipped .weapon
      (playerTwoWeapons.equipment ++ playerTwoWeapons.inventory) := by
  decide

/-- C4, amended: `Player.equipItem` preserves per-type uniqueness of the
`isEquipped` flag over the player's own equipment list; and when
`EquipmentManager.equipToPlayer` displaces the unique old item of the same
type, the old item moves to the inventory exactly as it was (flag
included — it is not cleared), the new item becomes the only item of its
type in the equipment list with its flag set, and the old item's attack
effect is replaced by the new item's. -/
theorem c4_amended :
    (∀ (p : PlayerState) (eid : ℕ), atMostOnePerType p.equipment →
      atMostOnePerType (equipItem p eid).equipment) ∧
    (∀ (p : PlayerState) (w old : EquipmentItem),
      p.equipment.filter (fun e => e.etype == w.etype) = [old] →
      ((equipToPlayer p w).1.inventory = p.inventory ++ [old] ∧
       (equipToPlayer p w).1.equipment.filter (fun e => e.etype == w.etype)
         = [{ w with isEquipped := true }] ∧
       (equipToPlayer p w).1.attack =
         p.attack - old.stats.attack.getD 0 + w.stats.attack.getD 0)) := by
  constructor
  · intro p eid hinv t
    cases hfind : p.equipment.find? (fun it => it.id == eid) with
    | none => simp only [equipItem, hfind]; exact hinv t
    | some eq0 =>
      by_cases heq : eq0.isEquipped
      · simp only [equipItem, hfind, heq, if_true]
        exact le_trans (countEquipped_setFalse_le t _ eid) (hinv t)
      · simp only [equipItem, hfind, heq, Bool.false_eq_true, if_false]
        by_cases ht : t = eq0.etype
        · rw [ht]
          have h1 := countEquipped_setTrue_le eq0.etype
            (p.equipment.map (clearType eq0.etype)) eid
          rw [countEquipped_clearType_self] at h1
          exact h1
        · have hcomp : (fun it : EquipmentItem => it.id == eid) ∘
              (clearType eq0.etype) = fun it => it.id == eid := by
            funext it
            simp only [Function.comp_apply, clearType]
            split <;> rfl
          have hfind2 : (p.equipment.map (clearType eq0.etype)).find?
              (fun it => it.id == eid) = some (clearType eq0.etype eq0) := by
            rw [List.find?_map, hcomp, hfind]
            rfl
          have hz : (clearType eq0.etype eq0).etype ≠ t := by
            simp only [clearType]
            split <;> exact fun h => ht h.symm
          rw [countEquipped_setTrue_ne t _ eid _ hfind2 hz,
            countEquipped_clearType_ne t eq0.etype ht]
          exact hinv t
  · intro p w old hfilter
    have hfind : p.equipment.find? (fun e => e.etype == w.etype) = some old :=
      find_of_filter_eq_singleton _ _ _ hfilter
    have hinv1 : (equipToPlayer p w).1.inventory = p.inventory ++ [old] := by
      simp only [equipToPlayer, hfind, applyEffect_inventory,
        removeEffect_inventory]
    have hequip : (equipToPlayer p w).1.equipment =
        (p.equipment.filter (fun e => e.id != old.id)) ++
          [{ w with isEquipped := true }] := by
      simp only [equipToPlayer, hfind, applyEffect_equipment,
        removeEffect_equipment]
    refine ⟨hinv1, ?_, ?_⟩
    · rw [hequip, List.filter_append]
      have h2 : ([{ w with isEquipped := true }].filter
          (fun e => e.etype == w.etype)) = [{ w with isEquipped := true }] := by
        simp [List.filter_cons]
      have h1 : ((p.equipment.filter (fun e => e.id != old.id)).filter
          (fun e => e.etype == w.etype)) = [] := by
        rw [List.filter_eq_nil_iff]
        intro a ha hpa
        have hmem : a ∈ p.equipment := List.mem_of_mem_filter ha
        have haold : a = old :=
          eq_of_mem_of_filter_eq_singleton _ _ _ _ hfilter hmem hpa
        have hid : (a.id != old.id) = true :=
          (List.mem_filter.mp ha).2
        rw [haold] at hid
        simp at hid
      rw [h1, h2, List.nil_append]
    · simp only [equipToPlayer, hfind, applyEffect_attack]
      have : ({ removeEffect old p with
          inventory := (removeEffect old p).inventory ++ [old],
          equipment := (removeEffect old p).equipment.filter
            (fun eq => eq.id != old.id) } : PlayerState).attack
          = (removeEffect old p).attack := rfl
      rw [this, removeEffect_attack]

/-- A player owning an equipped armor and an unequipped armor, for the
equip-item witness. -/
def armorC : EquipmentItem :=
  { id := 3, name := "C", description := "", etype := .armor,
    rarity := .common, level := some 1, stats := {}, isEquipped := true }

def armorD : EquipmentItem :=
  { id := 4, name := "D", description := "", etype := .armor,
    rarity := .common, level := some 1, stats := {}, isEquipped := false }

def playerArmors : PlayerState :=
  { playerCx with equipment := [armorC, armorD] }

/-- C4, witness for the amended theorem: `equipItem` on a player with one
equipped and one unequipped armor, and `equipToPlayer` displacing a lone
weapon. -/
theorem c4_witness :
    (atMostOnePerType playerArmors.equipment ∧
      atMostOnePerType (equipItem playerArmors 4).equipment) ∧
    ((equipToPlayer playerCx weaponA).1.equipment.filter
        (fun e => e.etype == weaponB.etype) = [{ weaponA with isEquipped := true }] ∧
      ((equipToPlayer (equipToPlayer playerCx weaponA).1 weaponB).1.inventory
          = (equipToPlayer playerCx weaponA).1.inventory ++ [{ weaponA with isEquipped := true }] ∧
        (equipToPlayer (equipToPlayer playerCx weaponA).1 weaponB).1.equipment.filter
          (fun e => e.etype == weaponB.etype) = [{ weaponB with isEquipped := true }] ∧
        (equipToPlayer (equipToPlayer playerCx weaponA).1 weaponB).1.attack
          = (equipToPlayer playerCx weaponA).1.attack
            - ({ weaponA with isEquipped := true } : EquipmentItem).stats.attack.getD 0
            + weaponB.stats.attack.getD 0)) :=
  ⟨⟨fun t => by cases t <;> decide,
    (c4_amended.1 playerArmors 4 (fun t => by cases t <;> decide)) ⟩,
    by decide,
    c4_amended.2 (equipToPlayer playerCx weaponA).1 weaponB
      { weaponA with isEquipped := true } (by decide)⟩

/-- Squared Euclidean distance.  The source computes
`Math.sqrt(dx*dx + dy*dy)` and compares it to a non-negative range `r`;
since both sides are non-negative this is equivalent to comparing
`dx*dx + dy*dy` with `r*r`, which keeps the range checks inside `ℚ`. -/
def dist2 (x1 y1 x2 y2 : ℚ) : ℚ :=
  (x1 - x2) ^ 2 + (y1 - y2) ^ 2

/-- `Player.canAttack()` / `Player.performAttack()`: return 0 when the
cooldown has not elapsed; otherwise reset `lastAttackTime` to `now`, sum
the equipped weapons' truthy attack bonuses onto the base attack, and
apply the 5% critical roll (draw `u`, multiplier 1.5). -/
def performAttack (p : PlayerState) (now u : ℚ) : ℚ × PlayerState :=
  if now - p.lastAttackTime < p.attackSpeed then (0, p)
  else
    let p2 := { p with lastAttackTime := now }
    let base := p.equipment.foldl
      (fun acc it =>
        if it.isEquipped && numTruthy it.stats.attack then
          acc + it.stats.attack.getD 0
        else acc)
      p.attack
    (if u < 1/20 then base * (3/2) else base, p2)

/-- `Monster.attackTarget(target)`: gate on the cadence
`now - lastAttackTime >= attackSpeed` (resetting `lastAttackTime` as soon
as the gate passes), then on range; boss monsters roll a 10% double-damage
critical (draw `u`); the target takes `max(1, damage - defense * 0.5)`
through its own `takeDamage`. -/
def attackTarget (m : MonsterState) (target : PlayerState) (now u : ℚ) :
    MonsterState × PlayerState :=
  if m.attackSpeed ≤ now - m.lastAttackTime then
    let m2 := { m with lastAttackTime := now }
    if dist2 m2.x m2.y target.x target.y ≤ m2.attackRange ^ 2 then
      let damage := if m2.isBoss ∧ u < 1/10 then m2.attack * 2 else m2.attack
      let damageDealt := max 1 (damage - target.defense * (1/2))
      (m2, (playerTakeDamage target damageDealt).1)
    else (m2, target)
  else (m, target)

/-- The authoritative state the `GameSystem` sweeps operate on. -/
structure GState where
  player : PlayerState
  monsters : List MonsterState
  score : ℚ
deriving DecidableEq

/-- One iteration of `GameSystem.checkMonsterAttacks`: any monster within
60 units deals `max(1, monster.attack - player.defense * 0.5)` to the
player through `player.takeDamage` — with no cooldown check. -/
def monsterAttackStep (pl : PlayerState) (m : MonsterState) : PlayerState :=
  if dist2 pl.x pl.y m.x m.y ≤ 60 ^ 2 then
    (playerTakeDamage pl (max 1 (m.attack - pl.defense * (1/2)))).1
  else pl

/-- `GameSystem.checkMonsterAttacks()`: fold the per-monster attack step
over the monster list in order. -/
def checkMonsterAttacks (st : GState) : GState :=
  { st with player := st.monsters.foldl monsterAttackStep st.player }

/-- A monster with attack 10 (the scenario of testable-property 2). -/
def monster10 : MonsterState := { monsterCx with attack := 10 }

/-- C7, counterexample: a monster with attack 10 hitting the defense-5,
no-armor player through the game's monster-attack sweep removes 5/2
health, not 5: the sweep pre-mitigates to `max(1, 10 - 5*0.5) = 7.5`
(the claim's own formula already equals 7.5, not 5), and
`Player.takeDamage` then mitigates again by `min(5, 7.5*0.8) = 5`. -/
theorem c7_counterexample :
    playerCx.health -
        (checkMonsterAttacks ⟨playerCx, [monster10], 0⟩).player.health ≠ 5 ∧
    playerCx.health -
        (checkMonsterAttacks ⟨playerCx, [monster10], 0⟩).player.health = 5/2 := by
  have h : (checkMonsterAttacks ⟨playerCx, [monster10], 0⟩).player.health
      = 100 - 5/2 := by
    simp only [checkMonsterAttacks, monsterAttackStep, playerTakeDamage,
      List.foldl_cons, List.foldl_nil, playerCx, monster10, monsterCx,
      dist2, armorReduce, List.foldl_nil]
    norm_num
  rw [h]
  norm_num [playerCx]

/-- C7, amended: in both monster-attack paths — the per-tick sweep
`checkMonsterAttacks` and `Monster.attackTarget` with its cadence and
range gates satisfied — a non-boss monster with attack 10 striking a
player with defense 5 and no equipment applies exactly 5/2 damage to the
player's health: the attacker computes `max(1, 10 - 5*0.5) = 7.5`, and
`Player.takeDamage` reduces that by `min(5, 7.5*0.8) = 5`, leaving
`max(1, 2.5) = 5/2`. -/
theorem c7_amended (p : PlayerState) (m : MonsterState) (sc now u : ℚ)
    (hpd : p.defense = 5) (hpe : p.equipment = []) (hma : m.attack = 10)
    (hnb : m.isBoss = false)
    (hrange : dist2 p.x p.y m.x m.y ≤ 60 ^ 2)
    (hcad : m.attackSpeed ≤ now - m.lastAttackTime)
    (hrange2 : dist2 m.x m.y p.x p.y ≤ m.attackRange ^ 2) :
    p.health - (checkMonsterAttacks ⟨p, [m], sc⟩).player.health = 5/2 ∧
    p.health - (attackTarget m p now u).2.health = 5/2 := by
  constructor
  · simp only [checkMonsterAttacks, monsterAttackStep, List.foldl_cons,
      List.foldl_nil, hrange, if_pos, playerTakeDamage, hpe, hpd, hma,
      List.foldl_nil]
    norm_num
  · simp only [attackTarget, hcad, if_pos, hnb, false_and, if_neg,
      not_false_iff, hrange2, playerTakeDamage, hpe, hpd, hma,
      List.foldl_nil]
    norm_num

/-- C7, witness for the amended theorem: the scenario player and monster
placed at the same point, cadence satisfied. -/
theorem c7_witness :
    playerCx.defense = 5 ∧ playerCx.equipment = [] ∧
    monster10.attack = 10 ∧ monster10.isBoss = false ∧
    dist2 playerCx.x playerCx.y monster10.x monster10.y ≤ 60 ^ 2 ∧
    monster10.attackSpeed ≤ 1500 - monster10.lastAttackTime ∧
    dist2 monster10.x monster10.y playerCx.x playerCx.y
      ≤ monster10.attackRange ^ 2 ∧
    (playerCx.health -
        (checkMonsterAttacks ⟨playerCx, [monster10], 0⟩).player.health = 5/2 ∧
      playerCx.health - (attackTarget monster10 playerCx 1500 1).2.health = 5/2) :=
  ⟨rfl, rfl, rfl, rfl, by norm_num [dist2, playerCx, monster10, monsterCx],
    by norm_num [monster10, monsterCx],
    by norm_num [dist2, playerCx, monster10, monsterCx],
    c7_amended playerCx monster10 0 1500 1 rfl rfl rfl rfl
      (by norm_num [dist2, playerCx, monster10, monsterCx])
      (by norm_num [monster10, monsterCx])
      (by norm_num [dist2, playerCx, monster10, monsterCx])⟩

/-- The ambient entropy of the game: the `Math.random()` stream (`rnd`
with cursor `rndPos`, one draw per call in source evaluation order) and
the `generateId()` stream (`ids` with cursor `idPos`). -/
structure Env where
  rnd : ℕ → ℚ
  rndPos : ℕ
  ids : ℕ → ℕ
  idPos : ℕ

/-- Consume one `Math.random()` draw. -/
def Env.draw (e : Env) : ℚ × Env :=
  (e.rnd e.rndPos, { e with rndPos := e.rndPos + 1 })

/-- Consume one `generateId()` value. -/
def Env.freshId (e : Env) : ℕ × Env :=
  (e.ids e.idPos, { e with idPos := e.idPos + 1 })

/-- `performAttack` with its entropy accounting: the critical roll draws
from `Math.random()` only when the cooldown check passes (the early
`return 0` happens before the roll). -/
def performAttackE (p : PlayerState) (now : ℚ) (env : Env) :
    ℚ × PlayerState × Env :=
  if now - p.lastAttackTime < p.attackSpeed then (0, p, env)
  else
    let ue := env.draw
    let r := performAttack p now ue.1
    (r.1, r.2, ue.2)

/-- The base-name pools of `Monster.dropLoot`. -/
def lootBaseNames : EquipType → List String
  | .weapon => ["剑", "斧", "杖", "匕首", "弓"]
  | .armor => ["头盔", "胸甲", "护腿", "战靴", "盾牌"]
  | .accessory => ["戒指", "项链", "护身符", "腰带", "手镯"]

/-- The rarity prefix pools of `Monster.dropLoot` (`COMMON` maps to the
empty prefix handled by the ternary in the source). -/
def lootPrefixes : Rarity → List String
  | .common => []
  | .uncommon => ["坚固的", "锋利的", "精致的"]
  | .rare => ["稀有的", "闪耀的", "优质的"]
  | .epic => ["史诗级", "传说的", "远古的"]
  | .legendary => ["神话", "无敌", "永恒"]

/-- The rarity multiplier table of `Monster.generateLootStats`. -/
def lootRarityMultiplier : Rarity → ℚ
  | .common => 1
  | .uncommon => 3/2
  | .rare => 2
  | .epic => 3
  | .legendary => 5

/-- `Monster.generateLootStats(equipmentType, rarity)`: `baseStat` is
`level * 5`, each produced stat is floored. -/
def generateLootStats (level : ℤ) (t : EquipType) (r : Rarity) : Stats :=
  let baseStat : ℚ := (level : ℚ) * 5
  let mult := lootRarityMultiplier r
  match t with
  | .weapon => { attack := some ((⌊baseStat * mult⌋ : ℤ) : ℚ) }
  | .armor => { defense := some ((⌊baseStat * mult⌋ : ℤ) : ℚ), maxHealth := some ((⌊baseStat * 2 * mult⌋ : ℤ) : ℚ) }
  | .accessory => { criticalRate := some ((⌊baseStat * (1/10) * mult⌋ : ℤ) : ℚ), lifesteal := some ((⌊baseStat * (1/20) * mult⌋ : ℤ) : ℚ) }

/-- `Monster.dropLoot()`: roll the tier drop chance (boss 0.8, elite 0.5,
normal 0.2); on success draw the equipment type uniformly, the
tier-conditioned rarity, a base name index, a prefix index when the rarity
is not COMMON, derive the stats from the monster's level, and build one
loot record (note `isEquipped: false` and no `level` key).  Draws happen
in source evaluation order. -/
def dropLoot (m : MonsterState) (env : Env) : List EquipmentItem × Env :=
  let d1 := env.draw
  let dropChance : ℚ := if m.isBoss then 4/5 else if m.isElite then 1/2 else 1/5
  if d1.1 < dropChance then
    let d2 := d1.2.draw
    let etype : EquipType :=
      if (⌊d2.1 * 3⌋ : ℤ) = 0 then .weapon
      else if (⌊d2.1 * 3⌋ : ℤ) = 1 then .armor
      else .accessory
    let d3 := d2.2.draw
    let r : Rarity :=
      if m.isBoss then (if d3.1 < 2/5 then .epic else .legendary)
      else if m.isElite then (if d3.1 < 3/5 then .rare else .epic)
      else if d3.1 < 1/2 then .common
      else if d3.1 < 4/5 then .uncommon
      else .rare
    let d4 := d3.2.draw
    let baseName := (lootBaseNames etype).getD (⌊d4.1 * 5⌋).toNat ""
    let dp : String × Env :=
      if r ≠ .common then
        let d5 := d4.2.draw
        ((lootPrefixes r).getD (⌊d5.1 * 3⌋).toNat "", d5.2)
      else ("", d4.2)
    let nm0 := if dp.1 ≠ "" then dp.1 ++ baseName else baseName
    let nm := if nm0 = "" then "未知装备" else nm0
    let stats := generateLootStats m.level etype r
    let di := dp.2.freshId
    ([{ id := di.1, name := nm,
        description := "一件" ++ dp.1 ++ baseName ++ "，提供强大的属性加成。",
        etype := etype, rarity := r, level := none, stats := stats,
        isEquipped := false }], di.2)
  else ([], d1.2)

/-- `Player.gainExperience` with the entropy cursor threaded through the
ambient environment. -/
def gainExperienceE (p : PlayerState) (amount : ℚ) (env : Env) :
    PlayerState × Env :=
  let r := gainExperience p amount env.rnd env.rndPos
  (r.1, { env with rndPos := r.2 })

/-- `GameSystem.handleMonsterDeath(monster, index)`: add the reward to the
score, grant the experience, generate and pick up loot, and splice the
monster out of the list. -/
def handleMonsterDeath (st : GState) (m : MonsterState) (i : ℕ)
    (env : Env) : GState × Env :=
  let score2 := st.score + m.experienceReward
  let g := gainExperienceE st.player m.experienceReward env
  let lo := dropLoot m g.2
  let pl2 := lo.1.foldl addEquipment g.1
  ({ player := pl2, monsters := st.monsters.eraseIdx i, score := score2 },
    lo.2)

/-- The reverse-iteration monster loop of `GameSystem.checkPlayerAttacks`
(`for (let i = monsters.length - 1; i >= 0; i--)`): the argument is the
number of indices still to visit, so index `i` is processed when the
argument is `i + 1`.  A monster within 150 units takes the computed attack
damage; on death `handleMonsterDeath` splices it out (safe because the
iteration descends). -/
def playerAttackSweep (attackDamage : ℚ) :
    GState → Env → ℕ → GState × Env
  | st, env, 0 => (st, env)
  | st, env, i + 1 =>
    match st.monsters[i]? with
    | none => playerAttackSweep attackDamage st env i
    | some m =>
      if dist2 st.player.x st.player.y m.x m.y ≤ 150 ^ 2 then
        let r := monsterTakeDamage m attackDamage
        let st2 := { st with monsters := st.monsters.set i r.1 }
        if r.2 then
          let r2 := handleMonsterDeath st2 r.1 i env
          playerAttackSweep attackDamage r2.1 r2.2 i
        else
          playerAttackSweep attackDamage st2 env i
      else
        playerAttackSweep attackDamage st env i

/-- `GameSystem.checkPlayerAttacks()` when the attack key or button is
pressed: start from a fixed base damage of 25, call
`player.performAttack()` and use its result only when it is positive (the
source comment says it executes the attack "ignoring the cooldown"), then
sweep all monsters in reverse order. -/
def checkPlayerAttacks (st : GState) (attackPressed : Bool) (now : ℚ)
    (env : Env) : GState × Env :=
  if attackPressed then
    let r := performAttackE st.player now env
    let attackDamage := if r.1 > 0 then r.1 else 25
    playerAttackSweep attackDamage { st with player := r.2.1 } r.2.2
      st.monsters.length
  else (st, env)

/-- A deterministic environment for concrete runs. -/
def envZero : Env :=
  { rnd := fun _ => 0, rndPos := 0, ids := fun n => n, idPos := 0 }

/-- A high-health monster that survives the counterexample hit. -/
def monsterTank : MonsterState :=
  { monsterCx with health := 1000, maxHealth := 1000 }

/-- The player mid-cooldown at `now = 1500`: last attack at 1000,
interval 1000. -/
def stCooldown : GState :=
  { player := { playerCx with lastAttackTime := 1000 },
    monsters := [monsterTank], score := 0 }

/-- C6, counterexample: with the player's attack on cooldown
(`now - lastAttackTime = 500 < 1000 = attackSpeed`), `performAttack`
returns 0, yet the per-tick sweep still deals the fixed 25 base damage to
the monster in range (health 1000 drops to 977 after the monster's own
mitigation) — refuting "the player's per-tick attack sweep never deals
damage while the player's attack is on cooldown". -/
theorem c6_counterexample :
    ((1500 : ℚ) - stCooldown.player.lastAttackTime <
      stCooldown.player.attackSpeed) ∧
    stCooldown.monsters.map (fun m => m.health) = [1000] ∧
    ((checkPlayerAttacks stCooldown true 1500 envZero).1.monsters.map
      (fun m => m.health)) = [977] := by
  refine ⟨by norm_num [stCooldown, playerCx], by norm_num [stCooldown, monsterTank, monsterCx], ?_⟩
  have hcool : (1500 : ℚ) - stCooldown.player.lastAttackTime <
      stCooldown.player.attackSpeed := by norm_num [stCooldown, playerCx]
  simp only [checkPlayerAttacks, performAttackE, stCooldown, playerCx,
    monsterTank, monsterCx, envZero, if_true]
  norm_num
  simp only [playerAttackSweep, List.getElem?_cons_zero, dist2,
    monsterTakeDamage]
  norm_num

/-- C6, amended: the cadence contract does hold inside the entity methods:
`Player.performAttack` returns 0 and changes nothing while
`now - lastAttackTime < attackSpeed` and resets `lastAttackTime` to `now`
exactly when the gate passes; `Monster.attackTarget` is a no-op on both
parties while its cadence gate fails and resets `lastAttackTime` to `now`
when it passes.  But the per-tick sweep `checkPlayerAttacks` substitutes a
fixed 25 damage when `performAttack` returns 0, so it deals damage even on
cooldown (and `checkMonsterAttacks` has no cadence gate at all). -/
theorem c6_amended (p : PlayerState) (now u : ℚ) (m : MonsterState)
    (tgt : PlayerState) (now2 u2 : ℚ) :
    ((now - p.lastAttackTime < p.attackSpeed →
        performAttack p now u = (0, p)) ∧
     (p.attackSpeed ≤ now - p.lastAttackTime →
        (performAttack p now u).2.lastAttackTime = now)) ∧
    ((now2 - m.lastAttackTime < m.attackSpeed →
        attackTarget m tgt now2 u2 = (m, tgt)) ∧
     (m.attackSpeed ≤ now2 - m.lastAttackTime →
        (attackTarget m tgt now2 u2).1.lastAttackTime = now2)) := by
  refine ⟨⟨?_, ?_⟩, ?_, ?_⟩
  · intro h
    simp [performAttack, h]
  · intro h
    have h2 : ¬(now - p.lastAttackTime < p.attackSpeed) := not_lt.mpr h
    simp only [performAttack, h2, if_neg, not_false_iff]
  · intro h
    have h2 : ¬(m.attackSpeed ≤ now2 - m.lastAttackTime) := not_le.mpr h
    simp [attackTarget, h2]
  · intro h
    simp only [attackTarget, h, if_pos]
    split <;> rfl

/-- C6, witness: the amended theorem applied on cooldown (player, monster)
and off cooldown. -/
theorem c6_witness :
    ((500 : ℚ) - playerCx.lastAttackTime < playerCx.attackSpeed ∧
      performAttack playerCx 500 1 = (0, playerCx)) ∧
    (playerCx.attackSpeed ≤ (1500 : ℚ) - playerCx.lastAttackTime ∧
      (performAttack playerCx 1500 1).2.lastAttackTime = 1500) ∧
    ((500 : ℚ) - monsterCx.lastAttackTime < monsterCx.attackSpeed ∧
      attackTarget monsterCx playerCx 500 1 = (monsterCx, playerCx)) ∧
    (monsterCx.attackSpeed ≤ (1500 : ℚ) - monsterCx.lastAttackTime ∧
      (attackTarget monsterCx playerCx 1500 1).1.lastAttackTime = 1500) :=
  ⟨⟨by norm_num [playerCx],
      (c6_amended playerCx 500 1 monsterCx playerCx 500 1).1.1
        (by norm_num [playerCx])⟩,
    ⟨by norm_num [playerCx],
      (c6_amended playerCx 1500 1 monsterCx playerCx 1500 1).1.2
        (by norm_num [playerCx])⟩,
    ⟨by norm_num [monsterCx],
      (c6_amended playerCx 500 1 monsterCx playerCx 500 1).2.1
        (by norm_num [monsterCx])⟩,
    ⟨by norm_num [monsterCx],
      (c6_amended playerCx 1500 1 monsterCx playerCx 1500 1).2.2
        (by norm_num [monsterCx])⟩⟩

/-- A chunk of the infinite map (`Chunk` class): integer grid coordinates,
the owned obstacle list, and the generated flag. -/
structure ChunkState where
  id : ℕ
  x : ℤ
  y : ℤ
  obstacles : List ObstacleRec
  generated : Bool

/-- The inline `simpleRandom(seed)` of `Chunk.generate`:
`const x = Math.sin(seed) * 10000; return x - Math.floor(x)`. -/
noncomputable def simpleRandom (s : ℝ) : ℝ :=
  Int.fract (Real.sin s * 10000)

/-- One call of the chunk rng, `rng() = simpleRandom(chunkSeed +
Math.random() * 1000)`: despite the comment in the source promising that
the seed makes equal chunks generate equal obstacles, each call folds a
fresh ambient `Math.random()` draw (stream `e`, cursor `pos`) into the
seed. -/
noncomputable def chunkRngAt (chunkSeed : ℝ) (e : ℕ → ℝ) (pos : ℕ) : ℝ :=
  simpleRandom (chunkSeed + e pos * 1000)

/-- The body of the obstacle loop in `Chunk.generate`: position draws at
`pos`, `pos+1`, the type draw at `pos+2` (`types[Math.floor(rng()*3)] ||
TREE`), then the per-type size draws (two for tree and rock, one for wall,
whose height is the constant 20); returns the obstacle and the advanced
draw cursor. -/
noncomputable def genObstacle (cs wx wy : ℝ) (e : ℕ → ℝ) (pos : ℕ)
    (oid : ℕ) : ObstacleRec × ℕ :=
  let x := wx + chunkRngAt cs e pos * 500
  let y := wy + chunkRngAt cs e (pos + 1) * 500
  let tIdx : ℤ := ⌊chunkRngAt cs e (pos + 2) * 3⌋
  if tIdx = 0 then
    ({ id := oid, otype := .tree, x := x, y := y,
       width := 40 + chunkRngAt cs e (pos + 3) * 20,
       height := 60 + chunkRngAt cs e (pos + 4) * 40,
       isSolid := true, health := 100, maxHealth := 100, level := 1 },
      pos + 5)
  else if tIdx = 1 then
    ({ id := oid, otype := .rock, x := x, y := y,
       width := 30 + chunkRngAt cs e (pos + 3) * 30,
       height := 30 + chunkRngAt cs e (pos + 4) * 30,
       isSolid := true, health := 200, maxHealth := 200, level := 1 },
      pos + 5)
  else if tIdx = 2 then
    ({ id := oid, otype := .wall, x := x, y := y,
       width := 50 + chunkRngAt cs e (pos + 3) * 100,
       height := 20,
       isSolid := true, health := 500, maxHealth := 500, level := 1 },
      pos + 4)
  else
    ({ id := oid, otype := .tree, x := x, y := y,
       width := 40 + chunkRngAt cs e (pos + 3) * 20,
       height := 60 + chunkRngAt cs e (pos + 4) * 40,
       isSolid := true, health := 100, maxHealth := 100, level := 1 },
      pos + 5)

/-- The obstacle loop of `Chunk.generate`, building `n` obstacles while
threading the draw cursor and the `generateId()` cursor. -/
noncomputable def genObstacles (cs wx wy : ℝ) (e : ℕ → ℝ) (ids : ℕ → ℕ) :
    ℕ → ℕ → ℕ → List ObstacleRec
  | 0, _, _ => []
  | n + 1, pos, idPos =>
    let r := genObstacle cs wx wy e pos (ids idPos)
    r.1 :: genObstacles cs wx wy e ids n r.2 (idPos + 1)

/-- `Chunk.generate(seed)`: an early return when already generated;
otherwise `chunkSeed = seed + x * 10000 + y * 100`, an obstacle count of
`Math.floor(rng() * 15) + 5`, and the obstacle loop pushing onto the
chunk's list; finally the generated flag is set. -/
noncomputable def chunkGenerate (c : ChunkState) (seed : ℤ) (e : ℕ → ℝ)
    (ids : ℕ → ℕ) : ChunkState :=
  if c.generated then c
  else
    let chunkSeed : ℝ := (seed : ℝ) + (c.x : ℝ) * 10000 + (c.y : ℝ) * 100
    let worldX : ℝ := (c.x : ℝ) * 500
    let worldY : ℝ := (c.y : ℝ) * 500
    let obstacleCount : ℤ := ⌊chunkRngAt chunkSeed e 0 * 15⌋ + 5
    { c with
      obstacles := c.obstacles ++
        genObstacles chunkSeed worldX worldY e ids obstacleCount.toNat 1 0,
      generated := true }

/-- C8: chunk generation is idempotent — after one `generate(seed)` the
`generated` flag is set and any second call (whatever the ambient entropy
at that time) returns the state unchanged, obstacle list included. -/
theorem c8_generate_idempotent (c : ChunkState) (seed : ℤ)
    (e1 e2 : ℕ → ℝ) (ids1 ids2 : ℕ → ℕ) :
    chunkGenerate (chunkGenerate c seed e1 ids1) seed e2 ids2 =
      chunkGenerate c seed e1 ids1 := by
  by_cases h : c.generated <;> simp [chunkGenerate, h]

theorem genObstacles_length (cs wx wy : ℝ) (e : ℕ → ℝ) (ids : ℕ → ℕ) :
    ∀ (n pos idPos : ℕ),
    (genObstacles cs wx wy e ids n pos idPos).length = n := by
  intro n
  induction n with
  | zero => intro pos idPos; rfl
  | succ n ih =>
    intro pos idPos
    simp only [genObstacles, List.length_cons, ih]

/-- A freshly constructed chunk at grid coordinates (0, 0). -/
def chunkFresh : ChunkState :=
  { id := 0, x := 0, y := 0, obstacles := [], generated := false }

theorem simpleRandom_pi_div_two : simpleRandom (Real.pi / 2) = 0 := by
  unfold simpleRandom
  rw [Real.sin_pi_div_two, one_mul]
  rw [show (10000 : ℝ) = ((10000 : ℤ) : ℝ) by norm_num, Int.fract_intCast]

theorem simpleRandom_pi_div_four :
    simpleRandom (Real.pi / 4) = 5000 * Real.sqrt 2 - 7071 := by
  unfold simpleRandom
  rw [Real.sin_pi_div_four]
  rw [show Real.sqrt 2 / 2 * 10000 = 5000 * Real.sqrt 2 by ring]
  have hsq : Real.sqrt 2 ^ 2 = 2 := Real.sq_sqrt (by norm_num)
  have hnn : (0 : ℝ) ≤ Real.sqrt 2 := Real.sqrt_nonneg 2
  have hfl : ⌊(5000 * Real.sqrt 2 : ℝ)⌋ = 7071 := by
    rw [Int.floor_eq_iff]
    push_cast
    constructor <;> nlinarith
  rw [Int.fract, hfl]
  norm_num

/-- C3: the claim (and the source's own comment) is that generation is
deterministic in `(seed, chunkX, chunkY)`, but `rng()` folds ambient
`Math.random()` draws into the seed: generating the very same fresh chunk
(0,0) with the same seed 0 under the ambient draw `π/2000` yields 5
obstacles, and under the ambient draw `π/4000` yields 6 — different
obstacle sets for identical `(seed, chunkX, chunkY)`. -/
theorem c3_codebug :
    (chunkGenerate chunkFresh 0 (fun _ => Real.pi / 2000)
        (fun n => n)).obstacles.length = 5 ∧
    (chunkGenerate chunkFresh 0 (fun _ => Real.pi / 4000)
        (fun n => n)).obstacles.length = 6 := by
  have hsq : Real.sqrt 2 ^ 2 = 2 := Real.sq_sqrt (by norm_num)
  have hnn : (0 : ℝ) ≤ Real.sqrt 2 := Real.sqrt_nonneg 2
  constructor
  · have h1 : chunkRngAt 0 (fun _ => Real.pi / 2000) 0 = 0 := by
      unfold chunkRngAt
      rw [show (0 : ℝ) + Real.pi / 2000 * 1000 = Real.pi / 2 by ring,
        simpleRandom_pi_div_two]
    simp [chunkGenerate, chunkFresh, genObstacles_length, h1]
  · have h2 : chunkRngAt 0 (fun _ => Real.pi / 4000) 0 =
        5000 * Real.sqrt 2 - 7071 := by
      unfold chunkRngAt
      rw [show (0 : ℝ) + Real.pi / 4000 * 1000 = Real.pi / 4 by ring,
        simpleRandom_pi_div_four]
    have h3 : ⌊(5000 * Real.sqrt 2 - 7071) * 15⌋ = 1 := by
      rw [Int.floor_eq_iff]
      push_cast
      constructor <;> nlinarith
    simp [chunkGenerate, chunkFresh, genObstacles_length, h2, h3]

/-- A 2D point (`Position`). -/
structure Position where
  x : ℚ
  y : ℚ
deriving DecidableEq

/-- A collider (`Collider`): axis-aligned box plus solidity flag. -/
structure Collider where
  x : ℚ
  y : ℚ
  width : ℚ
  height : ℚ
  isSolid : Bool
deriving DecidableEq

/-- `checkCollision(a, b)`: strict axis-aligned box overlap. -/
def checkCollision (a b : Collider) : Bool :=
  decide (a.x < b.x + b.width) && decide (a.x + a.width > b.x) &&
  decide (a.y < b.y + b.height) && decide (a.y + a.height > b.y)

/-- The block test at sample index `i` inside `hasLineOfSight`: the 1×1
probe collider placed at `start + (i / steps) * (dx, dy)` is tested
against every solid obstacle. -/
def losBlockedAt (s : Position) (dx dy : ℚ) (steps : ℕ)
    (obstacles : List Collider) (i : ℕ) : Bool :=
  let t : ℚ := (i : ℚ) / (steps : ℚ)
  let pc : Collider := ⟨s.x + dx * t, s.y + dy * t, 1, 1, true⟩
  obstacles.any (fun o => o.isSolid && checkCollision pc o)

/-- The indices visited by the sampling loop
`for (let i = 1; i < steps; i++)`. -/
def losSampleIdx (steps : ℕ) : List ℕ :=
  List.range' 1 (steps - 1)

/-- The body of `hasLineOfSight` at a given step count: sight holds iff no
sampled probe hits a solid obstacle. -/
def hasLineOfSightSteps (s e : Position) (obstacles : List Collider)
    (steps : ℕ) : Bool :=
  (losSampleIdx steps).all
    (fun i => !(losBlockedAt s (e.x - s.x) (e.y - s.y) steps obstacles i))

/-- `steps = Math.max(2, Math.floor(dist / resolution))` with
`dist = Math.sqrt(dx*dx + dy*dy)`. -/
noncomputable def losSteps (s e : Position) (resolution : ℝ) : ℤ :=
  max 2 ⌊Real.sqrt ((((e.x - s.x) ^ 2 + (e.y - s.y) ^ 2 : ℚ) : ℝ)) / resolution⌋

/-- `hasLineOfSight(start, end, obstacles, resolution = 5)` from
`gameUtils`. -/
noncomputable def hasLineOfSight (s e : Position)
    (obstacles : List Collider) (resolution : ℝ) : Bool :=
  hasLineOfSightSteps s e obstacles (losSteps s e resolution).toNat

def losStart : Position := ⟨0, 0⟩

def losEnd : Position := ⟨30, 40⟩

/-- C9, counterexample: from (0,0) to (30,40) at the default resolution 5
the distance is 50, so `steps = max(2, ⌊50/5⌋) = 10`, but the loop
`for (i = 1; i < steps; i++)` visits only 9 interior points — not the
`max(2, ⌊dist/resolution⌋) = 10` sampled points the claim states. -/
theorem c9_counterexample :
    (losSampleIdx (losSteps losStart losEnd 5).toNat).length ≠
      (losSteps losStart losEnd 5).toNat := by
  have hdist : Real.sqrt
      ((((losEnd.x - losStart.x) ^ 2 + (losEnd.y - losStart.y) ^ 2 : ℚ) : ℝ))
      = 50 := by
    norm_num [losStart, losEnd]
    rw [show (2500 : ℝ) = 50 ^ 2 by norm_num, Real.sqrt_sq (by norm_num)]
  have hsteps : losSteps losStart losEnd 5 = 10 := by
    unfold losSteps
    rw [hdist]
    norm_num
  rw [hsteps]
  simp [losSampleIdx]

/-- C9, amended: the loop samples exactly
`max(2, ⌊dist/resolution⌋) - 1` interior points (indices `1 .. steps-1`),
and `hasLineOfSight` returns `false` iff at least one of those sampled
points' 1×1 probe boxes overlaps a solid obstacle's box. -/
theorem c9_amended (s e : Position) (obstacles : List Collider)
    (resolution : ℝ) (hres : 0 < resolution) :
    (losSampleIdx (losSteps s e resolution).toNat).length =
      (losSteps s e resolution).toNat - 1 ∧
    (hasLineOfSight s e obstacles resolution = false ↔
      ∃ i ∈ losSampleIdx (losSteps s e resolution).toNat,
        losBlockedAt s (e.x - s.x) (e.y - s.y)
          (losSteps s e resolution).toNat obstacles i = true) := by
  constructor
  · simp [losSampleIdx]
  · unfold hasLineOfSight hasLineOfSightSteps
    rw [Bool.eq_false_iff, ne_eq, List.all_eq_true]
    simp only [Bool.not_eq_true']
    push_neg
    simp only [Bool.not_eq_false]

/-- An obstacle square straddling the segment midpoint, for the witness. -/
def losObstacle : Collider := ⟨14, 19, 2, 2, true⟩

/-- C9, witness for the amended theorem at resolution 5. -/
theorem c9_witness :
    (0 : ℝ) < 5 ∧
    ((losSampleIdx (losSteps losStart losEnd 5).toNat).length =
        (losSteps losStart losEnd 5).toNat - 1 ∧
      (hasLineOfSight losStart losEnd [losObstacle] 5 = false ↔
        ∃ i ∈ losSampleIdx (losSteps losStart losEnd 5).toNat,
          losBlockedAt losStart (losEnd.x - losStart.x)
            (losEnd.y - losStart.y) (losSteps losStart losEnd 5).toNat
            [losObstacle] i = true)) :=
  ⟨by norm_num, c9_amended losStart losEnd [losObstacle] 5 (by norm_num)⟩

end KillMonsters
